import Mathlib

/-!
Verification of the p9-admin project-administration tool against its
natural-language specification.

The development shallowly embeds the two source files
`p9admin/project.py` and `p9admin/cli/project.py`:

* pure decision logic (quota reconciliation, statistics aggregation,
  sort keys) becomes Lean functions;
* remote-effecting code (finders/creators against the cloud control
  plane, deletions, HTTP quota reads/writes) becomes explicit state
  passing over record types plus an event trace listing the calls the
  code issues, in order;
* fallible paths (the `RequiresForceError` raise, the volume-endpoint
  `EndpointNotFound` catch, the `sys.exit` on missing configuration)
  become explicit outcome constructors.
-/

namespace P9Admin

/-! ## Quota reconciliation (`p9admin/project.py`, `verified_apply_quota`,
`_apply_quota`, `verified_apply_quota_defaults`)

`verified_apply_quota(client, project, quota_name, quota_value, force)`
first reads the current quota set (`get_quota`, a remote GET), then

* returns `None` when `new_value == old_value`;
* calls `_apply_quota` (a remote PUT) when
  `new_value == -1 or new_value > old_value or force`;
* otherwise raises `p9admin.RequiresForceError`.

`Action` records which of the three paths was taken; `QuotaEvent`
records the remote calls issued. -/

/-- Outcome of one quota reconciliation: `noop` models `return None`,
`apply v` models the `_apply_quota` call with the new value `v`, and
`refuse` models `raise p9admin.RequiresForceError`. -/
inductive Action where
  | noop : Action
  | apply : Int → Action
  | refuse : Action
deriving DecidableEq, Repr

/-- Remote calls issued by the quota path: `getQuota` is the
`get_quota` GET of the current quota set, `applyQuota` is the
`_apply_quota` PUT of one quota value. -/
inductive QuotaEvent where
  | getQuota : QuotaEvent
  | applyQuota : String → Int → QuotaEvent
deriving DecidableEq, Repr

/-- `verified_apply_quota` from `p9admin/project.py` (lines 302-319).
`current` stands for `int(quota["quota_set"][quota_name])` as read by
`get_quota`; the returned list is the sequence of remote calls issued
and the returned `Action` is the control-flow outcome. -/
def verified_apply_quota (current : Int) (quota_name : String)
    (quota_value : Int) (force : Bool) : List QuotaEvent × Action :=
  -- quota = get_quota(client, project.id)
  let evs := [QuotaEvent.getQuota]
  let new_value := quota_value
  let old_value := current
  -- if new_value == old_value: return None
  if new_value = old_value then
    (evs, Action.noop)
  -- if new_value == -1 or new_value > old_value or force: _apply_quota(...)
  else if new_value = -1 ∨ new_value > old_value ∨ force = true then
    (evs ++ [QuotaEvent.applyQuota quota_name new_value], Action.apply new_value)
  -- else: raise p9admin.RequiresForceError(...)
  else
    (evs, Action.refuse)

/-- `verified_apply_quota_defaults` from `p9admin/project.py` (lines
287-299): iterate the configured defaults mapping, reconcile each kind,
and catch `RequiresForceError` (logging a warning) so that a refused
kind does not abort the remaining kinds.  The result pairs each kind
with the outcome of its reconciliation. -/
def verified_apply_quota_defaults : List (String × Int) → (String → Int) →
    List (String × Action)
  | [], _ => []
  | (k, v) :: rest, current =>
    -- try: verified_apply_quota(...) except p9admin.RequiresForceError: warn
    match (verified_apply_quota (current k) k v false).2 with
    | Action.refuse => (k, Action.refuse) :: verified_apply_quota_defaults rest current
    | a => (k, a) :: verified_apply_quota_defaults rest current

/-- `true` iff the defaults run issued an `_apply_quota` call for kind `k`. -/
def appliedIn (k : String) (res : List (String × Action)) : Bool :=
  res.any fun kv =>
    kv.1 == k && (match kv.2 with | Action.apply _ => true | _ => false)

/-! ## Statistics (`p9admin/project.py`, `get_stats`, lines 252-284)

`get_stats` builds a row `[1, count_powered]` per server (seeded with a
zero row `[0, 0]`), a row `(1, volume.size, count_inuse, size_inuse)`
per volume (seeded with `[0, 0, 0, 0]`), and returns the columnwise
sums via `map(sum, zip(*rows))`.  The `EndpointNotFound` catch around
the volume loop is modelled by the `volumeEndpointAbsent` flag: when the
endpoint is absent no volume rows are appended. -/

/-- A server as read by `get_stats` (only `power_state` is used). -/
structure ServerS where
  power_state : Int
deriving DecidableEq, Repr

/-- A volume as read by `get_stats` (only `size` and `status` are used). -/
structure VolumeS where
  size : Int
  status : String
deriving DecidableEq, Repr

/-- Columnwise addition of two equal-length rows; composing it over all
rows is `map(sum, zip(*rows))` with the all-zero seed row. -/
def addVec (a b : List Int) : List Int := List.zipWith (fun x y => x + y) a b

/-- The row `[1, count_powered]` appended per server. -/
def serverRow (s : ServerS) : List Int :=
  [1, if 0 < s.power_state then 1 else 0]

/-- The row `(1, volume.size, count_inuse, size_inuse)` appended per
volume. -/
def volumeRow (v : VolumeS) : List Int :=
  [1, v.size,
   if v.status == "in-use" then 1 else 0,
   if v.status == "in-use" then v.size else 0]

/-- `get_stats` from `p9admin/project.py`: the six aggregated numbers
`(count_servers, count_servers_on, count_volumes, size_volumes,
count_volumes_inuse, size_volumes_inuse)`. -/
def get_stats (servers : List ServerS) (volumes : List VolumeS)
    (volumeEndpointAbsent : Bool) : List Int :=
  let serverRows := servers.map serverRow
  -- try: for volume in client.volumes(...): volumes.append(...)
  -- except keystoneauth1.exceptions.catalog.EndpointNotFound: warn
  let volumeRows := if volumeEndpointAbsent then [] else volumes.map volumeRow
  serverRows.foldl addVec [0, 0] ++ volumeRows.foldl addVec [0, 0, 0, 0]

/-! ## Project deletion (`p9admin/project.py`, `delete_project`,
lines 122-169)

`delete_project` walks the project's resources issuing remote deletion
calls in a fixed order: all servers, all volumes (the whole loop guarded
by a catch of `EndpointNotFound`, modelled by `volumeEndpointAbsent`),
per router all its ports then the router, per network all its subnets
then the network, then it materialises the security-group listing
(`list(client.security_groups(...))` — the platform would recreate a
default group if the last one were deleted while the project still
exists), deletes the project itself, and finally deletes each
previously captured security group.  `DelEv` is the trace of those
calls. -/

/-- A server scoped to the project being deleted. -/
structure ServerD where
  id : Nat
deriving DecidableEq, Repr

/-- A volume scoped to the project being deleted. -/
structure VolumeD where
  id : Nat
deriving DecidableEq, Repr

/-- A port attached to a router (`ports(device_id=router.id)`). -/
structure PortD where
  id : Nat
deriving DecidableEq, Repr

/-- A router together with its attached ports. -/
structure RouterD where
  id : Nat
  ports : List PortD
deriving DecidableEq, Repr

/-- A subnet of a network (`subnets(project_id=..., network_id=...)`). -/
structure SubnetD where
  id : Nat
deriving DecidableEq, Repr

/-- A network together with its subnets. -/
structure NetworkD where
  id : Nat
  subnets : List SubnetD
deriving DecidableEq, Repr

/-- A security group scoped to the project being deleted. -/
structure SGD where
  id : Nat
deriving DecidableEq, Repr

/-- Everything `delete_project` enumerates for the project, plus
whether the volume-service endpoint is absent (which makes the volume
listing raise `EndpointNotFound`). -/
structure ProjectEnv where
  servers : List ServerD
  volumes : List VolumeD
  routers : List RouterD
  networks : List NetworkD
  securityGroups : List SGD
  volumeEndpointAbsent : Bool
deriving DecidableEq, Repr

/-- One remote call issued by `delete_project`, in trace order.
`captureSecurityGroups` marks the materialisation of the
security-group listing, which the source performs just before deleting
the project. -/
inductive DelEv where
  | deleteServer : Nat → DelEv
  | deleteVolume : Nat → DelEv
  | removeRouterPort : Nat → Nat → DelEv
  | deleteRouter : Nat → DelEv
  | deleteSubnet : Nat → DelEv
  | deleteNetwork : Nat → DelEv
  | captureSecurityGroups : DelEv
  | deleteProject : DelEv
  | deleteSecurityGroup : Nat → DelEv
deriving DecidableEq, Repr

/-- `delete_project` from `p9admin/project.py`: the trace of remote
calls, built loop by loop exactly as the source appends them. -/
def delete_project (env : ProjectEnv) : List DelEv :=
  -- for server in client.servers(...): delete_server(server, force=True, ...)
  let t1 := env.servers.foldl (fun t s => t ++ [DelEv.deleteServer s.id]) []
  -- try: for volume in client.volumes(...): delete_volume(volume, ...)
  -- except EndpointNotFound: warn("No volume endpoint")
  let t2 := if env.volumeEndpointAbsent then t1
            else env.volumes.foldl (fun t v => t ++ [DelEv.deleteVolume v.id]) t1
  -- for router: for port in ports(device_id=router.id):
  --   remove_interface_from_router(...); then delete_router(router, ...)
  let t3 := env.routers.foldl (fun t r =>
      (r.ports.foldl (fun t2 p => t2 ++ [DelEv.removeRouterPort r.id p.id]) t)
        ++ [DelEv.deleteRouter r.id]) t2
  -- for network: for subnet in subnets(...): delete_subnet(subnet, ...);
  --   then delete_network(network, ...)
  let t4 := env.networks.foldl (fun t n =>
      (n.subnets.foldl (fun t2 x => t2 ++ [DelEv.deleteSubnet x.id]) t)
        ++ [DelEv.deleteNetwork n.id]) t3
  -- security_groups = list(client.security_groups(project_id=project.id))
  let t5 := t4 ++ [DelEv.captureSecurityGroups]
  -- client.keystone().projects.delete(project)
  let t6 := t5 ++ [DelEv.deleteProject]
  -- for sg in security_groups: delete_security_group(sg, ...)
  env.securityGroups.foldl (fun t g => t ++ [DelEv.deleteSecurityGroup g.id]) t6

/-! ## Security-group rule ordering (`p9admin/project.py`, `_attrgetter`
lines 14-17 and `show_project` lines 195-200)

`show_project` sorts each group's rules with
`sorted(sg_rules, key=_attrgetter("direction", "ether_type", "protocol",
"remote_group_id", "remote_ip_prefix", "port_range_min",
"port_range_max"))`.  `_attrgetter` maps every attribute through `str`,
so the key is a *list of strings* (`None` renders as `"None"`, numbers
as their decimal strings) and Python compares such lists
lexicographically, strings by code point.  `pyCharsLt` is Python's
string `<` on code points, `strListLe` is Python's `<=` on lists of
strings, and `sortRules` is `sorted` (a stable sort — any stable sort
produces the identical output list). -/

/-- A security-group rule as printed by `show_project`; nullable
attributes are `Option`s. -/
structure SGRuleF where
  direction : String
  ether_type : String
  protocol : Option String
  remote_group_id : Option String
  remote_ip_prefix : Option String
  port_range_min : Option Int
  port_range_max : Option Int
deriving DecidableEq, Repr

/-- Python `str` on a nullable string attribute. -/
def pyStr : Option String → String
  | none => "None"
  | some s => s

/-- Python `str` on a nullable integer attribute. -/
def pyStrInt : Option Int → String
  | none => "None"
  | some n => toString n

/-- Python string `<`: lexicographic comparison by code point, a proper
prefix comparing smaller. -/
def pyCharsLt : List Char → List Char → Bool
  | [], [] => false
  | [], _ :: _ => true
  | _ :: _, [] => false
  | a :: xs, b :: ys =>
    if a.toNat < b.toNat then true
    else if b.toNat < a.toNat then false
    else pyCharsLt xs ys

/-- Python `<=` on lists of strings (the comparison `sorted` performs on
the `_attrgetter` keys). -/
def strListLe : List String → List String → Bool
  | [], _ => true
  | _ :: _, [] => false
  | a :: xs, b :: ys =>
    if pyCharsLt a.toList b.toList then true
    else if pyCharsLt b.toList a.toList then false
    else strListLe xs ys

/-- The `_attrgetter` sort key of `show_project`: every attribute
rendered through `str`, in the order direction, ether type, protocol,
remote group reference, remote IP prefix, port min, port max. -/
def ruleKey : SGRuleF → List String
  | ⟨d, e, pr, rg, rip, pmin, pmax⟩ =>
    [d, e, pyStr pr, pyStr rg, pyStr rip, pyStrInt pmin, pyStrInt pmax]

/-- Key comparison between two rules. -/
def ruleLe (a b : SGRuleF) : Bool := strListLe (ruleKey a) (ruleKey b)

/-- Stable insertion into a sorted list (an earlier element stays in
front of key-equal later elements, as Python's stable `sorted` does). -/
def orderedInsertRule (a : SGRuleF) : List SGRuleF → List SGRuleF
  | [] => [a]
  | b :: l => if ruleLe a b then a :: b :: l else b :: orderedInsertRule a l

/-- `sorted(sg_rules, key=sort_key_func)` from `show_project`. -/
def sortRules : List SGRuleF → List SGRuleF
  | [] => []
  | a :: l => orderedInsertRule a (sortRules l)

/-! ## The `apply-quota-all` command (`p9admin/cli/project.py`,
`apply_quota_all`, lines 38-100)

The command body runs, in order:

```
client = p9admin.OpenStackClient()
projects = client.projects()          # remote project listing
if "OS_NOVA_URL" not in os.environ:
    sys.exit("OS_NOVA_URL environment variable must be set. ...")
...
for project in projects:
    try: verified_apply_quota(...)
    except RequiresForceError: warn and skip
```

Per the specification's facade contract, `client.projects()` is a
remote listing call; `CliEv.listProjects` records it.  `CliEv.fatalExit`
is the descriptive `sys.exit` on missing `OS_NOVA_URL`.  The per-project
quota events summarise the loop body (`applyQuota` when the
reconciliation applies, `skipRefused` when `RequiresForceError` is
caught and the project skipped, nothing on a no-op). -/

/-- Calls issued by `apply_quota_all`, in order. -/
inductive CliEv where
  | listProjects : CliEv
  | fatalExit : CliEv
  | applyQuota : Nat → String → Int → CliEv
  | skipRefused : Nat → CliEv
deriving DecidableEq, Repr

/-- `apply_quota_all` from `p9admin/cli/project.py` (single-quota flow):
`novaUrlSet` is whether `OS_NOVA_URL` is in the environment, `projects`
the ids returned by the listing, `current p` the current value of the
quota kind on project `p`. -/
def apply_quota_all (novaUrlSet : Bool) (projects : List Nat)
    (current : Nat → Int) (quota_name : String) (quota_value : Int) :
    List CliEv :=
  -- client = p9admin.OpenStackClient(); projects = client.projects()
  let evs := [CliEv.listProjects]
  -- if "OS_NOVA_URL" not in os.environ: sys.exit(...)
  if novaUrlSet = false then evs ++ [CliEv.fatalExit]
  else
    evs ++ projects.flatMap (fun p =>
      match (verified_apply_quota (current p) quota_name quota_value false).2 with
      | Action.apply v => [CliEv.applyQuota p quota_name v]
      | Action.noop => []
      | Action.refuse => [CliEv.skipRefused p])

/-! ## Project provisioning (`p9admin/project.py`, `ensure_project`,
lines 19-91)

`ensure_project` finds or creates the project, then (unless a found
project is trusted as complete, `assume_complete=True`) find-or-creates
the standard network `network1`, subnet `subnet0`, router `router0`,
security group `default`, and the external-access security-group rule.
The cloud is modelled as `CloudState`: per-kind resource lists plus a
fresh-id counter; finders are `List.find?` by the same attributes the
client facade matches on, creators append a record with a fresh id.
`ProvEv` records each find/create call issued, in order.

Per-slot lookup skipping mirrors the source exactly: when the project
was just created the network lookup is skipped (`if not new_project`),
when the network was just created the subnet lookup is skipped
(`if not new_network`), the router and rule lookups are skipped for a
new project, and the security-group lookup always runs (the platform
may have auto-created the group). -/

/-- A keystone project (`id`, `name`). -/
structure Project where
  id : Nat
  name : String
deriving DecidableEq, Repr

/-- A network owned by a project. -/
structure Network where
  id : Nat
  projectId : Nat
  name : String
deriving DecidableEq, Repr

/-- A subnet of a network. -/
structure Subnet where
  id : Nat
  projectId : Nat
  networkId : Nat
  name : String
  cidr : String
deriving DecidableEq, Repr

/-- A router owned by a project (the source also passes the network and
subnet it attaches to `create_router`; the attachment itself is not
inspected by any claim). -/
structure Router where
  id : Nat
  projectId : Nat
  name : String
deriving DecidableEq, Repr

/-- A security group owned by a project. -/
structure SecurityGroup where
  id : Nat
  projectId : Nat
  name : String
deriving DecidableEq, Repr

/-- The external-access rule of a security group
(`find_security_group_rule(sg)` looks it up by group). -/
structure SGRuleRec where
  id : Nat
  sgId : Nat
deriving DecidableEq, Repr

/-- The remote cloud state: resource lists plus a fresh-id counter. -/
structure CloudState where
  nextId : Nat
  projects : List Project
  networks : List Network
  subnets : List Subnet
  routers : List Router
  securityGroups : List SecurityGroup
  sgRules : List SGRuleRec
deriving DecidableEq, Repr

/-- The find/create calls `ensure_project` issues, in order. -/
inductive ProvEv where
  | findProject : ProvEv
  | createProject : ProvEv
  | findNetwork : ProvEv
  | createNetwork : ProvEv
  | findSubnet : ProvEv
  | createSubnet : ProvEv
  | findRouter : ProvEv
  | createRouter : ProvEv
  | findSecurityGroup : ProvEv
  | createSecurityGroup : ProvEv
  | findSecurityGroupRule : ProvEv
  | createSecurityGroupRule : ProvEv
deriving DecidableEq, Repr

/-- `NETWORK_NAME = "network1"` -/
def NETWORK_NAME : String := "network1"
/-- `SUBNET_NAME = "subnet0"` -/
def SUBNET_NAME : String := "subnet0"
/-- `SUBNET_CIDR = "192.168.0.0/24"` -/
def SUBNET_CIDR : String := "192.168.0.0/24"
/-- `ROUTER_NAME = "router0"` -/
def ROUTER_NAME : String := "router0"
/-- `SECURITY_GROUP_NAME = "default"` -/
def SECURITY_GROUP_NAME : String := "default"

/-- `client.keystone().projects.find(name=name)`. -/
def find_project (s : CloudState) (name : String) : Option Project :=
  s.projects.find? (fun p => p.name == name)

/-- `client.find_network(project, name)`. -/
def find_network (s : CloudState) (p : Project) (name : String) :
    Option Network :=
  s.networks.find? (fun n => n.projectId == p.id && n.name == name)

/-- `client.find_subnet(project, network, name)`. -/
def find_subnet (s : CloudState) (p : Project) (n : Network)
    (name : String) : Option Subnet :=
  s.subnets.find? (fun x =>
    x.projectId == p.id && x.networkId == n.id && x.name == name)

/-- `client.find_router(project, name)`. -/
def find_router (s : CloudState) (p : Project) (name : String) :
    Option Router :=
  s.routers.find? (fun r => r.projectId == p.id && r.name == name)

/-- `client.find_security_group(project, name)`. -/
def find_security_group (s : CloudState) (p : Project) (name : String) :
    Option SecurityGroup :=
  s.securityGroups.find? (fun g => g.projectId == p.id && g.name == name)

/-- `client.find_security_group_rule(sg)`. -/
def find_security_group_rule (s : CloudState) (g : SecurityGroup) :
    Option SGRuleRec :=
  s.sgRules.find? (fun r => r.sgId == g.id)

/-- `client.keystone().projects.create(name=name, domain=DOMAIN)`. -/
def create_project (s : CloudState) (name : String) :
    Project × CloudState :=
  let p : Project := { id := s.nextId, name := name }
  (p, { s with nextId := s.nextId + 1, projects := s.projects ++ [p] })

/-- `client.create_network(project, name)`. -/
def create_network (s : CloudState) (p : Project) (name : String) :
    Network × CloudState :=
  let n : Network := { id := s.nextId, projectId := p.id, name := name }
  (n, { s with nextId := s.nextId + 1, networks := s.networks ++ [n] })

/-- `client.create_subnet(project, network, name, cidr)`. -/
def create_subnet (s : CloudState) (p : Project) (n : Network)
    (name cidr : String) : Subnet × CloudState :=
  let x : Subnet := { id := s.nextId, projectId := p.id, networkId := n.id,
                      name := name, cidr := cidr }
  (x, { s with nextId := s.nextId + 1, subnets := s.subnets ++ [x] })

/-- `client.create_router(project, network, subnet, name)`. -/
def create_router (s : CloudState) (p : Project) (_n : Network)
    (_x : Subnet) (name : String) : Router × CloudState :=
  let r : Router := { id := s.nextId, projectId := p.id, name := name }
  (r, { s with nextId := s.nextId + 1, routers := s.routers ++ [r] })

/-- `client.create_security_group(project, name)`. -/
def create_security_group (s : CloudState) (p : Project) (name : String) :
    SecurityGroup × CloudState :=
  let g : SecurityGroup := { id := s.nextId, projectId := p.id, name := name }
  (g, { s with nextId := s.nextId + 1,
               securityGroups := s.securityGroups ++ [g] })

/-- `client.create_security_group_rule(sg)`. -/
def create_security_group_rule (s : CloudState) (g : SecurityGroup) :
    SGRuleRec × CloudState :=
  let r : SGRuleRec := { id := s.nextId, sgId := g.id }
  (r, { s with nextId := s.nextId + 1, sgRules := s.sgRules ++ [r] })

/-- The network slot (`ensure_project` lines 49-56): the lookup is
skipped when the project was just created; creation happens only when
nothing was found.  Returns the network, the `new_network` flag, the
new state, and the calls issued. -/
def ensure_network (s : CloudState) (p : Project) (new_project : Bool) :
    Network × Bool × CloudState × List ProvEv :=
  if new_project then
    let nc := create_network s p NETWORK_NAME
    (nc.1, true, nc.2, [ProvEv.createNetwork])
  else
    match find_network s p NETWORK_NAME with
    | some n => (n, false, s, [ProvEv.findNetwork])
    | none =>
      let nc := create_network s p NETWORK_NAME
      (nc.1, true, nc.2, [ProvEv.findNetwork, ProvEv.createNetwork])

/-- The subnet slot (lines 58-65): lookup skipped when the network was
just created. -/
def ensure_subnet (s : CloudState) (p : Project) (n : Network)
    (new_network : Bool) : Subnet × CloudState × List ProvEv :=
  if new_network then
    let xc := create_subnet s p n SUBNET_NAME SUBNET_CIDR
    (xc.1, xc.2, [ProvEv.createSubnet])
  else
    match find_subnet s p n SUBNET_NAME with
    | some x => (x, s, [ProvEv.findSubnet])
    | none =>
      let xc := create_subnet s p n SUBNET_NAME SUBNET_CIDR
      (xc.1, xc.2, [ProvEv.findSubnet, ProvEv.createSubnet])

/-- The router slot (lines 67-76): lookup skipped for a new project. -/
def ensure_router (s : CloudState) (p : Project) (n : Network) (x : Subnet)
    (new_project : Bool) : Router × CloudState × List ProvEv :=
  if new_project then
    let rc := create_router s p n x ROUTER_NAME
    (rc.1, rc.2, [ProvEv.createRouter])
  else
    match find_router s p ROUTER_NAME with
    | some r => (r, s, [ProvEv.findRouter])
    | none =>
      let rc := create_router s p n x ROUTER_NAME
      (rc.1, rc.2, [ProvEv.findRouter, ProvEv.createRouter])

/-- The security-group slot (lines 78-81): the lookup always runs (the
platform may auto-create the group). -/
def ensure_security_group (s : CloudState) (p : Project) :
    SecurityGroup × CloudState × List ProvEv :=
  match find_security_group s p SECURITY_GROUP_NAME with
  | some g => (g, s, [ProvEv.findSecurityGroup])
  | none =>
    let gc := create_security_group s p SECURITY_GROUP_NAME
    (gc.1, gc.2, [ProvEv.findSecurityGroup, ProvEv.createSecurityGroup])

/-- The security-group-rule slot (lines 83-89): lookup skipped for a new
project. -/
def ensure_security_group_rule (s : CloudState) (g : SecurityGroup)
    (new_project : Bool) : SGRuleRec × CloudState × List ProvEv :=
  if new_project then
    let rc := create_security_group_rule s g
    (rc.1, rc.2, [ProvEv.createSecurityGroupRule])
  else
    match find_security_group_rule s g with
    | some r => (r, s, [ProvEv.findSecurityGroupRule])
    | none =>
      let rc := create_security_group_rule s g
      (rc.1, rc.2, [ProvEv.findSecurityGroupRule, ProvEv.createSecurityGroupRule])

/-- Lines 49-91 of `ensure_project`: the standard-resource slots, run
in source order, threading the state and accumulating the trace. -/
def ensure_rest (s : CloudState) (p : Project) (new_project : Bool)
    (evs : List ProvEv) : Project × CloudState × List ProvEv :=
  match ensure_network s p new_project with
  | (network, new_network, s1, e1) =>
    match ensure_subnet s1 p network new_network with
    | (subnet, s2, e2) =>
      match ensure_router s2 p network subnet new_project with
      | (_router, s3, e3) =>
        match ensure_security_group s3 p with
        | (sg, s4, e4) =>
          match ensure_security_group_rule s4 sg new_project with
          | (_rule, s5, e5) =>
            (p, s5, evs ++ e1 ++ e2 ++ e3 ++ e4 ++ e5)

/-- `ensure_project` from `p9admin/project.py`: find or create the
project; in shallow mode (`assume_complete`, the source default) a found
project returns immediately; otherwise the standard slots run. -/
def ensure_project (s : CloudState) (name : String)
    (assume_complete : Bool) : Project × CloudState × List ProvEv :=
  match find_project s name with
  | some project =>
    if assume_complete then (project, s, [ProvEv.findProject])
    else ensure_rest s project false [ProvEv.findProject]
  | none =>
    let pc := create_project s name
    ensure_rest pc.2 pc.1 true [ProvEv.findProject, ProvEv.createProject]

/-- A cloud with no resources. -/
def emptyState : CloudState :=
  { nextId := 0, projects := [], networks := [], subnets := [],
    routers := [], securityGroups := [], sgRules := [] }

/-- Well-formedness of a cloud state: every stored id and ownership
reference is below the fresh-id counter (so freshly allocated ids are
genuinely fresh). -/
structure WF (s : CloudState) : Prop where
  proj : ∀ p ∈ s.projects, p.id < s.nextId
  net : ∀ n ∈ s.networks, n.id < s.nextId ∧ n.projectId < s.nextId
  sub : ∀ x ∈ s.subnets,
    x.id < s.nextId ∧ x.projectId < s.nextId ∧ x.networkId < s.nextId
  rtr : ∀ r ∈ s.routers, r.id < s.nextId ∧ r.projectId < s.nextId
  sg : ∀ g ∈ s.securityGroups, g.id < s.nextId ∧ g.projectId < s.nextId
  rule : ∀ r ∈ s.sgRules, r.id < s.nextId ∧ r.sgId < s.nextId

/-- The project `p` named `name` is fully provisioned in `s`: the
project lookup and every standard-slot lookup succeeds. -/
def provisioned (s : CloudState) (name : String) (p : Project) : Prop :=
  find_project s name = some p ∧
  ∃ n, find_network s p NETWORK_NAME = some n ∧
    (find_subnet s p n SUBNET_NAME).isSome ∧
    (find_router s p ROUTER_NAME).isSome ∧
    ∃ g, find_security_group s p SECURITY_GROUP_NAME = some g ∧
      (find_security_group_rule s g).isSome

end P9Admin

namespace P9Admin

/-- C1 (amended): outcome of `verified_apply_quota` as a function of the
current value `C` and requested value `R`: it no-ops iff `R = C`
(for every `force`); with `force = false` it applies iff `R ≠ C` and
(`R = -1` or `R > C`), and refuses iff `R < C` and `R ≠ -1`; with
`force = true` it applies exactly when `R ≠ C`. -/
theorem verified_apply_quota_policy :
    (∀ (C R : Int) (n : String) (f : Bool),
      ((verified_apply_quota C n R f).2 = Action.noop ↔ R = C))
    ∧ (∀ (C R : Int) (n : String),
      ((verified_apply_quota C n R false).2 = Action.apply R ↔
        (¬ R = C ∧ (R = -1 ∨ R > C))))
    ∧ (∀ (C R : Int) (n : String),
      ((verified_apply_quota C n R false).2 = Action.refuse ↔
        (R < C ∧ ¬ R = -1)))
    ∧ (∀ (C R : Int) (n : String),
      ((verified_apply_quota C n R true).2 = Action.apply R ↔ ¬ R = C)) := by
  refine ⟨?_, ?_, ?_, ?_⟩
  · intro C R n f
    simp only [verified_apply_quota]
    split_ifs with h1 h2 <;> simp_all
  · intro C R n
    simp only [verified_apply_quota]
    split_ifs with h1 h2 <;> simp_all
  · intro C R n
    simp only [verified_apply_quota]
    split_ifs with h1 h2 <;> simp_all <;> omega
  · intro C R n
    simp only [verified_apply_quota]
    split_ifs with h1 h2 <;> simp_all

/-- Witness for C1 at concrete inputs: raising 5 to 7 without force
applies. -/
theorem verified_apply_quota_policy_witness :
    (verified_apply_quota 5 "cores" 7 false).2 = Action.apply 7 :=
  (verified_apply_quota_policy.2.1 5 7 "cores").mpr (by decide)

/-- C1 counterexample to the claim as stated: at `C = -1`, `R = -1`
the condition "`R == -1` or `R > C`" holds, yet the code no-ops
(because `R == C`) instead of applying. -/
theorem verified_apply_quota_policy_cex :
    (((-1 : Int) = -1 ∨ ((-1 : Int) > (-1 : Int)))
      ∧ (verified_apply_quota (-1) "cores" (-1) false).2 ≠ Action.apply (-1)) := by
  decide

/-- C10: whenever `verified_apply_quota` does not apply — it no-ops on
equality or refuses a lowering — the trace of remote calls it issued is
exactly the single `get_quota` read: `_apply_quota` (the quota-modifying
PUT) is never called on the no-op and error paths. -/
theorem verified_apply_quota_no_put (C : Int) (n : String) (R : Int) (f : Bool)
    (h : (verified_apply_quota C n R f).2 = Action.noop ∨
         (verified_apply_quota C n R f).2 = Action.refuse) :
    (verified_apply_quota C n R f).1 = [QuotaEvent.getQuota] := by
  simp only [verified_apply_quota] at h ⊢
  split_ifs with h1 h2 <;> simp_all

/-- Witness for C10: lowering 5 to 3 without force refuses, and the
only remote call issued is the quota read. -/
theorem verified_apply_quota_no_put_witness :
    ((verified_apply_quota 5 "cores" 3 false).2 = Action.noop ∨
      (verified_apply_quota 5 "cores" 3 false).2 = Action.refuse)
    ∧ (verified_apply_quota 5 "cores" 3 false).1 = [QuotaEvent.getQuota] :=
  ⟨by decide, verified_apply_quota_no_put 5 "cores" 3 false (by decide)⟩

/-- C6 (amended): `verified_apply_quota_defaults` processes every kind
of the defaults mapping with its own reconciliation outcome — a refusal
on one kind is caught and does not abort the remaining kinds — and every
kind whose reconciliation results in an apply is indeed applied. -/
theorem verified_apply_quota_defaults_spec :
    (∀ (d : List (String × Int)) (c : String → Int),
      verified_apply_quota_defaults d c =
        d.map (fun kv => (kv.1, (verified_apply_quota (c kv.1) kv.1 kv.2 false).2)))
    ∧ (∀ (d : List (String × Int)) (c : String → Int), ∀ kv ∈ d,
      (verified_apply_quota (c kv.1) kv.1 kv.2 false).2 = Action.apply kv.2 →
      appliedIn kv.1 (verified_apply_quota_defaults d c) = true) := by
  have hmap : ∀ (d : List (String × Int)) (c : String → Int),
      verified_apply_quota_defaults d c =
        d.map (fun kv => (kv.1, (verified_apply_quota (c kv.1) kv.1 kv.2 false).2)) := by
    intro d c
    induction d with
    | nil => rfl
    | cons kv rest ih =>
      obtain ⟨k, v⟩ := kv
      simp only [verified_apply_quota_defaults, List.map_cons]
      cases h : (verified_apply_quota (c k) k v false).2 <;> simp [h, ih]
  refine ⟨hmap, ?_⟩
  intro d c kv hmem happly
  rw [hmap]
  simp only [appliedIn, List.any_eq_true]
  refine ⟨(kv.1, (verified_apply_quota (c kv.1) kv.1 kv.2 false).2), ?_, ?_⟩
  · exact List.mem_map_of_mem _ hmem
  · simp [happly]

/-- Witness for C6: with defaults `cores := 7, ram := 1` over current
quotas `cores = 5, ram = 9`, the `ram` kind is refused (1 < 9) yet the
`cores` kind is still applied (7 > 5). -/
theorem verified_apply_quota_defaults_spec_witness :
    ("cores", (7 : Int)) ∈ [("cores", (7 : Int)), ("ram", (1 : Int))]
    ∧ (verified_apply_quota
        ((fun k => if k == "cores" then (5 : Int) else 9) "cores") "cores" 7 false).2
        = Action.apply 7
    ∧ (verified_apply_quota
        ((fun k => if k == "cores" then (5 : Int) else 9) "ram") "ram" 1 false).2
        = Action.refuse
    ∧ appliedIn "cores"
        (verified_apply_quota_defaults [("cores", (7 : Int)), ("ram", (1 : Int))]
          (fun k => if k == "cores" then (5 : Int) else 9)) = true :=
  ⟨by decide, by decide, by decide,
    verified_apply_quota_defaults_spec.2
      [("cores", 7), ("ram", 1)] (fun k => if k == "cores" then 5 else 9)
      ("cores", 7) (by decide) (by decide)⟩

/-- C6 counterexample to the claim as stated: a kind whose requested
default equals the current value is *not* refused, yet it is not applied
either (the reconciliation no-ops), so "applies every kind whose
reconciliation does not refuse" fails. -/
theorem verified_apply_quota_defaults_cex :
    (verified_apply_quota 5 "cores" 5 false).2 ≠ Action.refuse
    ∧ appliedIn "cores"
        (verified_apply_quota_defaults [("cores", (5 : Int))] (fun _ => 5)) = false := by
  decide

/-- Folding the server rows of `get_stats` computes the server count and
the count of powered-on servers. -/
theorem foldl_addVec_servers (l : List ServerS) (a b : Int) :
    (l.map serverRow).foldl addVec [a, b]
      = [a + (l.length : Int),
         b + (((l.filter fun s => decide (0 < s.power_state)).length : Nat) : Int)] := by
  induction l generalizing a b with
  | nil => simp
  | cons s t ih =>
    simp only [List.map_cons, List.foldl_cons]
    have hrow : addVec [a, b] (serverRow s)
        = [a + 1, b + (if 0 < s.power_state then 1 else 0)] := rfl
    rw [hrow, ih]
    by_cases hp : 0 < s.power_state <;>
      simp [List.filter_cons, hp, List.cons.injEq] <;> omega

/-- Folding the volume rows of `get_stats` computes the volume count,
total size, in-use count, and in-use size. -/
theorem foldl_addVec_volumes (l : List VolumeS) (a b c d : Int) :
    (l.map volumeRow).foldl addVec [a, b, c, d]
      = [a + (l.length : Int),
         b + (l.map VolumeS.size).sum,
         c + (((l.filter fun v => v.status == "in-use").length : Nat) : Int),
         d + ((l.filter fun v => v.status == "in-use").map VolumeS.size).sum] := by
  induction l generalizing a b c d with
  | nil => simp
  | cons v t ih =>
    simp only [List.map_cons, List.foldl_cons]
    have hrow : addVec [a, b, c, d] (volumeRow v)
        = [a + 1, b + v.size,
           c + (if v.status == "in-use" then 1 else 0),
           d + (if v.status == "in-use" then v.size else 0)] := rfl
    rw [hrow, ih]
    by_cases hv : v.status == "in-use" <;>
      simp [List.filter_cons, hv, List.cons.injEq] <;> omega

/-- C8: `get_stats` returns the six-tuple (number of servers, number of
servers with positive power state, number of volumes, total volume
size, number of in-use volumes, total in-use volume size); in
particular, for power states `[1, 0, 1]` and volumes
`[(10, in-use), (5, available)]` it returns `(3, 2, 2, 15, 1, 10)`. -/
theorem get_stats_spec :
    (∀ (servers : List ServerS) (volumes : List VolumeS),
      get_stats servers volumes false =
        [(servers.length : Int),
         (((servers.filter fun s => decide (0 < s.power_state)).length : Nat) : Int),
         (volumes.length : Int),
         (volumes.map VolumeS.size).sum,
         (((volumes.filter fun v => v.status == "in-use").length : Nat) : Int),
         ((volumes.filter fun v => v.status == "in-use").map VolumeS.size).sum])
    ∧ get_stats [⟨1⟩, ⟨0⟩, ⟨1⟩] [⟨10, "in-use"⟩, ⟨5, "available"⟩] false
        = [3, 2, 2, 15, 1, 10] := by
  constructor
  · intro servers volumes
    simp only [get_stats, Bool.false_eq_true, if_false]
    rw [foldl_addVec_servers, foldl_addVec_volumes]
    simp
  · decide

/-- A loop that appends one event per element folds to the accumulator
followed by the mapped list. -/
theorem foldl_append_singleton {α β : Type} (f : α → β) (l : List α)
    (acc : List β) :
    l.foldl (fun t x => t ++ [f x]) acc = acc ++ l.map f := by
  induction l generalizing acc with
  | nil => simp
  | cons x t ih => simp [ih, List.append_assoc]

/-- A loop that appends a block of events per element folds to the
accumulator followed by the concatenation of the blocks. -/
theorem foldl_append_block {α β : Type} (g : α → List β) (l : List α)
    (acc : List β) :
    l.foldl (fun t x => t ++ g x) acc = acc ++ l.flatMap g := by
  induction l generalizing acc with
  | nil => simp
  | cons x t ih => simp [ih, List.append_assoc]

/-- Normal form of the `delete_project` trace. -/
theorem delete_project_eq (env : ProjectEnv) :
    delete_project env =
      env.servers.map (fun s => DelEv.deleteServer s.id)
      ++ (if env.volumeEndpointAbsent then []
          else env.volumes.map (fun v => DelEv.deleteVolume v.id))
      ++ env.routers.flatMap (fun r =>
          r.ports.map (fun p => DelEv.removeRouterPort r.id p.id)
            ++ [DelEv.deleteRouter r.id])
      ++ env.networks.flatMap (fun n =>
          n.subnets.map (fun x => DelEv.deleteSubnet x.id)
            ++ [DelEv.deleteNetwork n.id])
      ++ [DelEv.captureSecurityGroups, DelEv.deleteProject]
      ++ env.securityGroups.map (fun g => DelEv.deleteSecurityGroup g.id) := by
  cases habs : env.volumeEndpointAbsent
  · simp only [delete_project, habs, Bool.false_eq_true, if_false,
      foldl_append_singleton, List.append_assoc]
    simp only [foldl_append_block]
    simp [List.append_assoc]
  · simp only [delete_project, habs, eq_self_iff_true, if_true,
      foldl_append_singleton, List.append_assoc]
    simp only [foldl_append_block]
    simp [List.append_assoc]

/-- C2: `delete_project` issues its remote deletions in the order
servers, volumes, per-router port detachments then the router,
per-network subnets then the network, the security-group capture, the
project itself, and finally the security groups from the captured list
— every security-group deletion strictly after the project deletion. -/
theorem delete_project_order (env : ProjectEnv) :
    (delete_project { env with volumeEndpointAbsent := false } =
      env.servers.map (fun s => DelEv.deleteServer s.id)
      ++ env.volumes.map (fun v => DelEv.deleteVolume v.id)
      ++ env.routers.flatMap (fun r =>
          r.ports.map (fun p => DelEv.removeRouterPort r.id p.id)
            ++ [DelEv.deleteRouter r.id])
      ++ env.networks.flatMap (fun n =>
          n.subnets.map (fun x => DelEv.deleteSubnet x.id)
            ++ [DelEv.deleteNetwork n.id])
      ++ [DelEv.captureSecurityGroups, DelEv.deleteProject]
      ++ env.securityGroups.map (fun g => DelEv.deleteSecurityGroup g.id))
    ∧ ∃ pre, delete_project { env with volumeEndpointAbsent := false }
        = pre ++ [DelEv.deleteProject]
          ++ env.securityGroups.map (fun g => DelEv.deleteSecurityGroup g.id)
        ∧ ∀ e ∈ pre, ∀ gid, e ≠ DelEv.deleteSecurityGroup gid := by
  have heq := delete_project_eq { env with volumeEndpointAbsent := false }
  simp only at heq
  refine ⟨by simpa using heq, ?_⟩
  refine ⟨env.servers.map (fun s => DelEv.deleteServer s.id)
      ++ env.volumes.map (fun v => DelEv.deleteVolume v.id)
      ++ env.routers.flatMap (fun r =>
          r.ports.map (fun p => DelEv.removeRouterPort r.id p.id)
            ++ [DelEv.deleteRouter r.id])
      ++ env.networks.flatMap (fun n =>
          n.subnets.map (fun x => DelEv.deleteSubnet x.id)
            ++ [DelEv.deleteNetwork n.id])
      ++ [DelEv.captureSecurityGroups], ?_, ?_⟩
  · rw [heq]; simp [List.append_assoc]
  · intro e he gid
    simp only [List.mem_append, List.mem_map, List.mem_flatMap,
      List.mem_singleton] at he
    rcases he with ((((⟨s, _, rfl⟩ | ⟨v, _, rfl⟩) |
        ⟨r, _, (⟨p, _, rfl⟩ | rfl)⟩) | ⟨n, _, (⟨x, _, rfl⟩ | rfl)⟩) | rfl) <;> simp

/-- Witness for C2: the spec's fixture — one server, one volume, one
router with one port, one network with one subnet, two security groups
— produces exactly the claimed call order. -/
theorem delete_project_order_witness :
    delete_project
      { servers := [⟨1⟩], volumes := [⟨2⟩], routers := [⟨3, [⟨4⟩]⟩],
        networks := [⟨5, [⟨6⟩]⟩], securityGroups := [⟨7⟩, ⟨8⟩],
        volumeEndpointAbsent := false }
    = [DelEv.deleteServer 1, DelEv.deleteVolume 2,
       DelEv.removeRouterPort 3 4, DelEv.deleteRouter 3,
       DelEv.deleteSubnet 6, DelEv.deleteNetwork 5,
       DelEv.captureSecurityGroups, DelEv.deleteProject,
       DelEv.deleteSecurityGroup 7, DelEv.deleteSecurityGroup 8] := by
  have h := (delete_project_order
      { servers := [⟨1⟩], volumes := [⟨2⟩], routers := [⟨3, [⟨4⟩]⟩],
        networks := [⟨5, [⟨6⟩]⟩], securityGroups := [⟨7⟩, ⟨8⟩],
        volumeEndpointAbsent := false }).1
  simpa using h

/-- C7: when the volume-service endpoint is absent, `delete_project`
still performs every other deletion step with zero volumes processed,
and `get_stats` returns all-zero volume statistics instead of failing. -/
theorem volume_endpoint_absent_tolerated :
    (∀ env : ProjectEnv,
      delete_project { env with volumeEndpointAbsent := true } =
        env.servers.map (fun s => DelEv.deleteServer s.id)
        ++ env.routers.flatMap (fun r =>
            r.ports.map (fun p => DelEv.removeRouterPort r.id p.id)
              ++ [DelEv.deleteRouter r.id])
        ++ env.networks.flatMap (fun n =>
            n.subnets.map (fun x => DelEv.deleteSubnet x.id)
              ++ [DelEv.deleteNetwork n.id])
        ++ [DelEv.captureSecurityGroups, DelEv.deleteProject]
        ++ env.securityGroups.map (fun g => DelEv.deleteSecurityGroup g.id))
    ∧ (∀ (servers : List ServerS) (volumes : List VolumeS),
      get_stats servers volumes true =
        [(servers.length : Int),
         (((servers.filter fun s => decide (0 < s.power_state)).length : Nat) : Int),
         0, 0, 0, 0]) := by
  constructor
  · intro env
    have heq := delete_project_eq { env with volumeEndpointAbsent := true }
    simpa using heq
  · intro servers volumes
    simp only [get_stats, eq_self_iff_true, if_true, List.foldl_nil]
    rw [foldl_addVec_servers]
    simp

/-- Characters whose code points are equal are equal. -/
theorem char_eq_of_toNat_eq {a b : Char} (h : a.toNat = b.toNat) : a = b := by
  apply Char.ext
  apply UInt32.ext
  simpa [Char.toNat, UInt32.toNat] using h

/-- Two strings neither of which is `<` the other are equal. -/
theorem pyCharsLt_asymm_eq : ∀ x y : List Char,
    pyCharsLt x y = false → pyCharsLt y x = false → x = y := by
  intro x
  induction x with
  | nil =>
    intro y hxy _
    cases y with
    | nil => rfl
    | cons b ys => simp [pyCharsLt] at hxy
  | cons a xs ih =>
    intro y hxy hyx
    cases y with
    | nil => simp [pyCharsLt] at hyx
    | cons b ys =>
      simp only [pyCharsLt] at hxy hyx
      by_cases h1 : a.toNat < b.toNat
      · simp [h1] at hxy
      · by_cases h2 : b.toNat < a.toNat
        · simp [h1, h2] at hyx
        · have hab : a = b := char_eq_of_toNat_eq (by omega)
          simp [h1, h2] at hxy hyx
          rw [hab, ih ys hxy hyx]

/-- Python string `<` is transitive. -/
theorem pyCharsLt_trans : ∀ x y z : List Char,
    pyCharsLt x y = true → pyCharsLt y z = true → pyCharsLt x z = true := by
  intro x
  induction x with
  | nil =>
    intro y z hxy hyz
    cases y with
    | nil => simp [pyCharsLt] at hxy
    | cons b ys =>
      cases z with
      | nil => simp [pyCharsLt] at hyz
      | cons c zs => simp [pyCharsLt]
  | cons a xs ih =>
    intro y z hxy hyz
    cases y with
    | nil => simp [pyCharsLt] at hxy
    | cons b ys =>
      cases z with
      | nil => simp [pyCharsLt] at hyz
      | cons c zs =>
        simp only [pyCharsLt] at hxy hyz ⊢
        by_cases h1 : a.toNat < b.toNat
        · by_cases h2 : b.toNat < c.toNat
          · simp [show a.toNat < c.toNat by omega]
          · by_cases h3 : c.toNat < b.toNat
            · simp [h2, h3] at hyz
            · have : b = c := char_eq_of_toNat_eq (by omega)
              subst this
              simp [h1]
        · by_cases h1' : b.toNat < a.toNat
          · simp [h1, h1'] at hxy
          · have hab : a = b := char_eq_of_toNat_eq (by omega)
            subst hab
            simp only [h1, if_false, lt_irrefl] at hxy hyz ⊢
            by_cases h2 : a.toNat < c.toNat
            · simp [h2]
            · by_cases h3 : c.toNat < a.toNat
              · simp [h2, h3] at hyz
              · simp only [h2, h3, if_false] at hyz ⊢
                exact ih ys zs hxy hyz

/-- Equation lemma for the cons/cons case of `strListLe`, phrased on
`String.data`. -/
theorem strListLe_cons_cons (a b : String) (xs ys : List String) :
    strListLe (a :: xs) (b :: ys) =
      if pyCharsLt a.data b.data = true then true
      else if pyCharsLt b.data a.data = true then false
      else strListLe xs ys := rfl

/-- The key comparison is total. -/
theorem strListLe_total : ∀ x y : List String,
    strListLe x y = true ∨ strListLe y x = true := by
  intro x
  induction x with
  | nil => intro y; left; rfl
  | cons a xs ih =>
    intro y
    cases y with
    | nil => right; rfl
    | cons b ys =>
      by_cases h1 : pyCharsLt a.data b.data = true
      · left; rw [strListLe_cons_cons, if_pos h1]
      · by_cases h2 : pyCharsLt b.data a.data = true
        · right; rw [strListLe_cons_cons, if_pos h2]
        · rcases ih ys with h | h
          · left; rw [strListLe_cons_cons, if_neg h1, if_neg h2]; exact h
          · right; rw [strListLe_cons_cons, if_neg h2, if_neg h1]; exact h

/-- The key comparison is transitive. -/
theorem strListLe_trans : ∀ x y z : List String,
    strListLe x y = true → strListLe y z = true → strListLe x z = true := by
  intro x
  induction x with
  | nil => intro y z _ _; rfl
  | cons a xs ih =>
    intro y z hxy hyz
    cases y with
    | nil => simp [strListLe] at hxy
    | cons b ys =>
      cases z with
      | nil => simp [strListLe] at hyz
      | cons c zs =>
        rw [strListLe_cons_cons] at hxy hyz
        rw [strListLe_cons_cons]
        by_cases hab1 : pyCharsLt a.data b.data = true
        · by_cases hbc1 : pyCharsLt b.data c.data = true
          · rw [if_pos (pyCharsLt_trans _ _ _ hab1 hbc1)]
          · by_cases hbc2 : pyCharsLt c.data b.data = true
            · rw [if_neg hbc1, if_pos hbc2] at hyz; simp at hyz
            · have hbc : b.data = c.data :=
                pyCharsLt_asymm_eq _ _ (by simpa using hbc1) (by simpa using hbc2)
              rw [← hbc, if_pos hab1]
        · by_cases hab2 : pyCharsLt b.data a.data = true
          · rw [if_neg hab1, if_pos hab2] at hxy; simp at hxy
          · have hab : a.data = b.data :=
              pyCharsLt_asymm_eq _ _ (by simpa using hab1) (by simpa using hab2)
            rw [if_neg hab1, if_neg hab2] at hxy
            by_cases hbc1 : pyCharsLt b.data c.data = true
            · rw [hab, if_pos hbc1]
            · by_cases hbc2 : pyCharsLt c.data b.data = true
              · rw [if_neg hbc1, if_pos hbc2] at hyz; simp at hyz
              · rw [if_neg hbc1, if_neg hbc2] at hyz
                rw [hab, if_neg hbc1, if_neg hbc2]
                exact ih ys zs hxy hyz

/-- Inserting into the sorted tail permutes the cons. -/
theorem perm_orderedInsertRule (a : SGRuleF) :
    ∀ l : List SGRuleF, (orderedInsertRule a l).Perm (a :: l) := by
  intro l
  induction l with
  | nil => exact List.Perm.refl _
  | cons b t ih =>
    simp only [orderedInsertRule]
    by_cases h : ruleLe a b = true
    · simp [h]
    · simp only [h, if_false]
      exact (ih.cons b).trans (List.Perm.swap a b t)

/-- `sortRules` permutes its input. -/
theorem perm_sortRules : ∀ l : List SGRuleF, (sortRules l).Perm l := by
  intro l
  induction l with
  | nil => exact List.Perm.refl _
  | cons a t ih =>
    exact (perm_orderedInsertRule a (sortRules t)).trans (ih.cons a)

/-- Inserting into a key-sorted list keeps it key-sorted. -/
theorem sorted_orderedInsertRule (a : SGRuleF) :
    ∀ l : List SGRuleF, l.Pairwise (fun x y => ruleLe x y = true) →
      (orderedInsertRule a l).Pairwise (fun x y => ruleLe x y = true) := by
  intro l
  induction l with
  | nil => intro _; simp [orderedInsertRule]
  | cons b t ih =>
    intro h
    rcases List.pairwise_cons.1 h with ⟨hbt, hts⟩
    simp only [orderedInsertRule]
    by_cases hab : ruleLe a b = true
    · simp only [hab, if_true]
      refine List.pairwise_cons.2 ⟨?_, h⟩
      intro x hx
      rcases List.mem_cons.1 hx with rfl | hx
      · exact hab
      · exact strListLe_trans _ _ _ hab (hbt x hx)
    · simp only [hab, if_false]
      refine List.pairwise_cons.2 ⟨?_, ih hts⟩
      intro x hx
      rcases List.mem_cons.1 ((perm_orderedInsertRule a t).mem_iff.1 hx) with hxa | hx
      · rcases strListLe_total (ruleKey a) (ruleKey b) with h1 | h1
        · exact absurd h1 (by simpa [ruleLe] using hab)
        · rw [hxa]; exact h1
      · exact hbt x hx

/-- `sortRules` produces a key-sorted list. -/
theorem sorted_sortRules : ∀ l : List SGRuleF,
    (sortRules l).Pairwise (fun x y => ruleLe x y = true) := by
  intro l
  induction l with
  | nil => simp [sortRules]
  | cons a t ih => exact sorted_orderedInsertRule a (sortRules t) ih

/-- C4 (amended): `show_project` sorts every rule list by the stringified
composite key (direction, ether type, protocol, remote group reference,
remote IP prefix, port min, port max); in particular two rules identical
except for direction sort with the *egress* rule before the *ingress*
rule (`"egress" < "ingress"` by code point). -/
theorem show_project_rule_sort :
    (∀ rules : List SGRuleF,
      (sortRules rules).Pairwise (fun x y => ruleLe x y = true)
      ∧ (sortRules rules).Perm rules)
    ∧ (∀ (e : String) (pr rg rip : Option String) (pmin pmax : Option Int),
      sortRules [⟨"egress", e, pr, rg, rip, pmin, pmax⟩,
                 ⟨"ingress", e, pr, rg, rip, pmin, pmax⟩]
        = [⟨"egress", e, pr, rg, rip, pmin, pmax⟩,
           ⟨"ingress", e, pr, rg, rip, pmin, pmax⟩]
      ∧ sortRules [⟨"ingress", e, pr, rg, rip, pmin, pmax⟩,
                   ⟨"egress", e, pr, rg, rip, pmin, pmax⟩]
        = [⟨"egress", e, pr, rg, rip, pmin, pmax⟩,
           ⟨"ingress", e, pr, rg, rip, pmin, pmax⟩]) := by
  refine ⟨fun rules => ⟨sorted_sortRules rules, perm_sortRules rules⟩, ?_⟩
  intro e pr rg rip pmin pmax
  have hEI : pyCharsLt ("egress" : String).data ("ingress" : String).data = true := rfl
  have hIE : pyCharsLt ("ingress" : String).data ("egress" : String).data = false := rfl
  have h1 : ruleLe ⟨"egress", e, pr, rg, rip, pmin, pmax⟩
      ⟨"ingress", e, pr, rg, rip, pmin, pmax⟩ = true := by
    simp only [ruleLe, ruleKey]
    rw [strListLe_cons_cons, if_pos hEI]
  have h2 : ruleLe ⟨"ingress", e, pr, rg, rip, pmin, pmax⟩
      ⟨"egress", e, pr, rg, rip, pmin, pmax⟩ = false := by
    simp only [ruleLe, ruleKey]
    rw [strListLe_cons_cons, if_neg (by simp [hIE]), if_pos hEI]
  constructor
  · simp [sortRules, orderedInsertRule, h1]
  · simp [sortRules, orderedInsertRule, h2]

/-- Witness for C4 at a concrete rule pair. -/
theorem show_project_rule_sort_witness :
    sortRules [⟨"ingress", "IPv4", none, none, none, none, none⟩,
               ⟨"egress", "IPv4", none, none, none, none, none⟩]
      = [⟨"egress", "IPv4", none, none, none, none, none⟩,
         ⟨"ingress", "IPv4", none, none, none, none, none⟩] :=
  (show_project_rule_sort.2 "IPv4" none none none none none).2

/-- C4 counterexample to the claim as stated: two rules identical except
for direction sort with egress *first*, not with ingress before
egress. -/
theorem show_project_rule_sort_cex :
    sortRules [⟨"egress", "IPv4", none, none, none, none, none⟩,
               ⟨"ingress", "IPv4", none, none, none, none, none⟩]
      ≠ [⟨"ingress", "IPv4", none, none, none, none, none⟩,
         ⟨"egress", "IPv4", none, none, none, none, none⟩]
    ∧ sortRules [⟨"egress", "IPv4", none, none, none, none, none⟩,
                 ⟨"ingress", "IPv4", none, none, none, none, none⟩]
      = [⟨"egress", "IPv4", none, none, none, none, none⟩,
         ⟨"ingress", "IPv4", none, none, none, none, none⟩] := by
  decide

/-- C5 (amended): when `OS_NOVA_URL` is absent, `apply_quota_all` exits
fatally with its descriptive error before validating or applying any
quota — but only after the client has been constructed and the remote
project listing requested: the trace is exactly the listing followed by
the fatal exit, for every project list and quota request. -/
theorem apply_quota_all_requires_config (projects : List Nat)
    (current : Nat → Int) (n : String) (v : Int) :
    apply_quota_all false projects current n v
      = [CliEv.listProjects, CliEv.fatalExit] := by
  simp [apply_quota_all]

/-- C5 counterexample to the claim as stated: with `OS_NOVA_URL` absent
the first call issued is the remote project listing — it precedes the
configuration check, so the check does not happen "before any remote
call is attempted". -/
theorem apply_quota_all_requires_config_cex :
    apply_quota_all false [0] (fun _ => 0) "cores" 5
      = [CliEv.listProjects, CliEv.fatalExit]
    ∧ (apply_quota_all false [0] (fun _ => 0) "cores" 5).head?
      ≠ some CliEv.fatalExit := by
  decide

/-- `find?` over an append whose first part finds nothing searches the
second part. -/
theorem find?_append_of_none {α : Type} {p : α → Bool} {l₁ : List α}
    (l₂ : List α) (h : l₁.find? p = none) :
    (l₁ ++ l₂).find? p = l₂.find? p := by
  simp [List.find?_append, h]

/-- `find_project` depends only on the project list. -/
theorem find_project_congr {s s' : CloudState}
    (h : s'.projects = s.projects) (name : String) :
    find_project s' name = find_project s name := by
  simp [find_project, h]

/-- `find_network` depends only on the network list. -/
theorem find_network_congr {s s' : CloudState}
    (h : s'.networks = s.networks) (p : Project) (name : String) :
    find_network s' p name = find_network s p name := by
  simp [find_network, h]

/-- `find_subnet` depends only on the subnet list. -/
theorem find_subnet_congr {s s' : CloudState}
    (h : s'.subnets = s.subnets) (p : Project) (n : Network)
    (name : String) :
    find_subnet s' p n name = find_subnet s p n name := by
  simp [find_subnet, h]

/-- `find_router` depends only on the router list. -/
theorem find_router_congr {s s' : CloudState}
    (h : s'.routers = s.routers) (p : Project) (name : String) :
    find_router s' p name = find_router s p name := by
  simp [find_router, h]

/-- `find_security_group` depends only on the group list. -/
theorem find_security_group_congr {s s' : CloudState}
    (h : s'.securityGroups = s.securityGroups) (p : Project)
    (name : String) :
    find_security_group s' p name = find_security_group s p name := by
  simp [find_security_group, h]

/-- `find_security_group_rule` depends only on the rule list. -/
theorem find_security_group_rule_congr {s s' : CloudState}
    (h : s'.sgRules = s.sgRules) (g : SecurityGroup) :
    find_security_group_rule s' g = find_security_group_rule s g := by
  simp [find_security_group_rule, h]

/-- Contract of the network slot: from a well-formed state (and, when
the lookup is skipped for a new project, freshness of the project id)
the slot returns a network that its own lookup now finds, preserves
well-formedness and the other resource lists, and — when it created the
network — no existing subnet references the new network's id. -/
theorem ensure_network_spec (s : CloudState) (p : Project) (b : Bool)
    (hwf : WF s) (hp : p.id < s.nextId)
    (hfr : b = true → ∀ n ∈ s.networks, n.projectId ≠ p.id) :
    ∃ n nb s' e, ensure_network s p b = (n, nb, s', e)
      ∧ WF s' ∧ p.id < s'.nextId ∧ s.nextId ≤ s'.nextId
      ∧ s'.projects = s.projects ∧ s'.subnets = s.subnets
      ∧ s'.routers = s.routers ∧ s'.securityGroups = s.securityGroups
      ∧ s'.sgRules = s.sgRules
      ∧ find_network s' p NETWORK_NAME = some n
      ∧ n.id < s'.nextId
      ∧ (nb = true → ∀ x ∈ s.subnets, x.networkId ≠ n.id) := by
  have hcreate : ∀ hnone : s.networks.find?
        (fun n => n.projectId == p.id && n.name == NETWORK_NAME) = none,
      find_network
        { s with nextId := s.nextId + 1,
                 networks := s.networks ++ [⟨s.nextId, p.id, NETWORK_NAME⟩] }
        p NETWORK_NAME = some ⟨s.nextId, p.id, NETWORK_NAME⟩ := by
    intro hnone
    simp only [find_network]
    rw [find?_append_of_none _ hnone]
    simp
  cases b with
  | true =>
    have hnone : s.networks.find?
        (fun n => n.projectId == p.id && n.name == NETWORK_NAME) = none := by
      rw [List.find?_eq_none]
      intro x hx
      simp only [Bool.and_eq_true, beq_iff_eq, not_and]
      intro h1 _
      exact hfr rfl x hx h1
    refine ⟨⟨s.nextId, p.id, NETWORK_NAME⟩, true,
      { s with nextId := s.nextId + 1,
               networks := s.networks ++ [⟨s.nextId, p.id, NETWORK_NAME⟩] },
      [ProvEv.createNetwork], rfl, ?_, ?_, ?_, rfl, rfl, rfl, rfl, rfl,
      hcreate hnone, ?_, ?_⟩
    · constructor
      · exact fun q hq => Nat.lt_succ_of_lt (hwf.proj q hq)
      · intro n hn
        rcases List.mem_append.1 hn with hn | hn
        · have := hwf.net n hn; dsimp only; omega
        · rcases List.mem_singleton.1 hn with rfl
          constructor <;> dsimp only <;> omega
      · intro x hx; have := hwf.sub x hx; dsimp only; omega
      · intro r hr; have := hwf.rtr r hr; dsimp only; omega
      · intro g hg; have := hwf.sg g hg; dsimp only; omega
      · intro r hr; have := hwf.rule r hr; dsimp only; omega
    · dsimp only; omega
    · dsimp only; omega
    · simp
    · intro _ x hx
      have := hwf.sub x hx
      simp only
      omega
  | false =>
    cases hfind : find_network s p NETWORK_NAME with
    | some n =>
      refine ⟨n, false, s, [ProvEv.findNetwork],
        by simp [ensure_network, hfind], hwf, hp, le_refl _,
        rfl, rfl, rfl, rfl, rfl, hfind, ?_, ?_⟩
      · have hn := List.mem_of_find?_eq_some hfind
        exact (hwf.net n hn).1
      · intro h; cases h
    | none =>
      refine ⟨⟨s.nextId, p.id, NETWORK_NAME⟩, true,
        { s with nextId := s.nextId + 1,
                 networks := s.networks ++ [⟨s.nextId, p.id, NETWORK_NAME⟩] },
        [ProvEv.findNetwork, ProvEv.createNetwork],
        by simp [ensure_network, hfind, create_network], ?_, ?_, ?_,
        rfl, rfl, rfl, rfl, rfl, hcreate hfind, ?_, ?_⟩
      · constructor
        · exact fun q hq => Nat.lt_succ_of_lt (hwf.proj q hq)
        · intro n hn
          rcases List.mem_append.1 hn with hn | hn
          · have := hwf.net n hn; dsimp only; omega
          · rcases List.mem_singleton.1 hn with rfl
            constructor <;> dsimp only <;> omega
        · intro x hx; have := hwf.sub x hx; dsimp only; omega
        · intro r hr; have := hwf.rtr r hr; dsimp only; omega
        · intro g hg; have := hwf.sg g hg; dsimp only; omega
        · intro r hr; have := hwf.rule r hr; dsimp only; omega
      · dsimp only; omega
      · dsimp only; omega
      · simp
      · intro _ x hx
        have := hwf.sub x hx
        simp only
        omega

/-- Contract of the subnet slot: analogous to the network slot; when the
lookup is skipped because the network is new, freshness of the network
id guarantees the created subnet is the unique match. -/
theorem ensure_subnet_spec (s : CloudState) (p : Project) (n : Network)
    (nb : Bool) (hwf : WF s) (hp : p.id < s.nextId) (hn : n.id < s.nextId)
    (hfr : nb = true → ∀ x ∈ s.subnets, x.networkId ≠ n.id) :
    ∃ x s' e, ensure_subnet s p n nb = (x, s', e)
      ∧ WF s' ∧ p.id < s'.nextId ∧ n.id < s'.nextId ∧ s.nextId ≤ s'.nextId
      ∧ s'.projects = s.projects ∧ s'.networks = s.networks
      ∧ s'.routers = s.routers ∧ s'.securityGroups = s.securityGroups
      ∧ s'.sgRules = s.sgRules
      ∧ find_subnet s' p n SUBNET_NAME = some x := by
  have hcreate : ∀ _hnone : s.subnets.find?
        (fun x => x.projectId == p.id && x.networkId == n.id
          && x.name == SUBNET_NAME) = none,
      find_subnet
        { s with nextId := s.nextId + 1,
                 subnets := (s.subnets
                   ++ [⟨s.nextId, p.id, n.id, SUBNET_NAME, SUBNET_CIDR⟩]) }
        p n SUBNET_NAME
        = some ⟨s.nextId, p.id, n.id, SUBNET_NAME, SUBNET_CIDR⟩ := by
    intro hnone
    simp only [find_subnet]
    rw [find?_append_of_none _ hnone]
    simp
  have hwfc : WF { s with nextId := s.nextId + 1,
                          subnets := (s.subnets
                            ++ [⟨s.nextId, p.id, n.id, SUBNET_NAME, SUBNET_CIDR⟩]) } := by
    constructor
    · intro q hq; have := hwf.proj q hq; dsimp only; omega
    · intro q hq; have := hwf.net q hq; dsimp only; omega
    · intro x hx
      rcases List.mem_append.1 hx with hx | hx
      · have := hwf.sub x hx; dsimp only; omega
      · rcases List.mem_singleton.1 hx with rfl
        refine ⟨?_, ?_, ?_⟩ <;> dsimp only <;> omega
    · intro r hr; have := hwf.rtr r hr; dsimp only; omega
    · intro g hg; have := hwf.sg g hg; dsimp only; omega
    · intro r hr; have := hwf.rule r hr; dsimp only; omega
  cases nb with
  | true =>
    have hnone : s.subnets.find?
        (fun x => x.projectId == p.id && x.networkId == n.id
          && x.name == SUBNET_NAME) = none := by
      rw [List.find?_eq_none]
      intro x hx
      simp only [Bool.and_eq_true, beq_iff_eq]
      intro hcon
      exact hfr rfl x hx hcon.1.2
    exact ⟨⟨s.nextId, p.id, n.id, SUBNET_NAME, SUBNET_CIDR⟩,
      { s with nextId := s.nextId + 1,
               subnets := (s.subnets
                 ++ [⟨s.nextId, p.id, n.id, SUBNET_NAME, SUBNET_CIDR⟩]) },
      [ProvEv.createSubnet], rfl, hwfc, by dsimp only; omega,
      by dsimp only; omega, by dsimp only; omega, rfl, rfl, rfl, rfl, rfl,
      hcreate hnone⟩
  | false =>
    cases hfind : find_subnet s p n SUBNET_NAME with
    | some x =>
      exact ⟨x, s, [ProvEv.findSubnet], by simp [ensure_subnet, hfind],
        hwf, hp, hn, le_refl _, rfl, rfl, rfl, rfl, rfl, hfind⟩
    | none =>
      exact ⟨⟨s.nextId, p.id, n.id, SUBNET_NAME, SUBNET_CIDR⟩,
        { s with nextId := s.nextId + 1,
                 subnets := (s.subnets
                   ++ [⟨s.nextId, p.id, n.id, SUBNET_NAME, SUBNET_CIDR⟩]) },
        [ProvEv.findSubnet, ProvEv.createSubnet],
        by simp [ensure_subnet, hfind, create_subnet],
        hwfc, by dsimp only; omega, by dsimp only; omega,
        by dsimp only; omega, rfl, rfl, rfl, rfl, rfl, hcreate hfind⟩

/-- Contract of the router slot. -/
theorem ensure_router_spec (s : CloudState) (p : Project) (n : Network)
    (x : Subnet) (b : Bool) (hwf : WF s) (hp : p.id < s.nextId)
    (hfr : b = true → ∀ r ∈ s.routers, r.projectId ≠ p.id) :
    ∃ r s' e, ensure_router s p n x b = (r, s', e)
      ∧ WF s' ∧ p.id < s'.nextId ∧ s.nextId ≤ s'.nextId
      ∧ s'.projects = s.projects ∧ s'.networks = s.networks
      ∧ s'.subnets = s.subnets ∧ s'.securityGroups = s.securityGroups
      ∧ s'.sgRules = s.sgRules
      ∧ find_router s' p ROUTER_NAME = some r := by
  have hcreate : ∀ _hnone : s.routers.find?
        (fun r => r.projectId == p.id && r.name == ROUTER_NAME) = none,
      find_router
        { s with nextId := s.nextId + 1,
                 routers := s.routers ++ [⟨s.nextId, p.id, ROUTER_NAME⟩] }
        p ROUTER_NAME = some ⟨s.nextId, p.id, ROUTER_NAME⟩ := by
    intro hnone
    simp only [find_router]
    rw [find?_append_of_none _ hnone]
    simp
  have hwfc : WF { s with nextId := s.nextId + 1,
                          routers := s.routers ++ [⟨s.nextId, p.id, ROUTER_NAME⟩] } := by
    constructor
    · intro q hq; have := hwf.proj q hq; dsimp only; omega
    · intro q hq; have := hwf.net q hq; dsimp only; omega
    · intro q hq; have := hwf.sub q hq; dsimp only; omega
    · intro r hr
      rcases List.mem_append.1 hr with hr | hr
      · have := hwf.rtr r hr; dsimp only; omega
      · rcases List.mem_singleton.1 hr with rfl
        constructor <;> dsimp only <;> omega
    · intro g hg; have := hwf.sg g hg; dsimp only; omega
    · intro r hr; have := hwf.rule r hr; dsimp only; omega
  cases b with
  | true =>
    have hnone : s.routers.find?
        (fun r => r.projectId == p.id && r.name == ROUTER_NAME) = none := by
      rw [List.find?_eq_none]
      intro q hq
      simp only [Bool.and_eq_true, beq_iff_eq]
      intro hcon
      exact hfr rfl q hq hcon.1
    exact ⟨⟨s.nextId, p.id, ROUTER_NAME⟩,
      { s with nextId := s.nextId + 1,
               routers := s.routers ++ [⟨s.nextId, p.id, ROUTER_NAME⟩] },
      [ProvEv.createRouter], rfl, hwfc, by dsimp only; omega,
      by dsimp only; omega, rfl, rfl, rfl, rfl, rfl, hcreate hnone⟩
  | false =>
    cases hfind : find_router s p ROUTER_NAME with
    | some r =>
      exact ⟨r, s, [ProvEv.findRouter], by simp [ensure_router, hfind],
        hwf, hp, le_refl _, rfl, rfl, rfl, rfl, rfl, hfind⟩
    | none =>
      exact ⟨⟨s.nextId, p.id, ROUTER_NAME⟩,
        { s with nextId := s.nextId + 1,
                 routers := s.routers ++ [⟨s.nextId, p.id, ROUTER_NAME⟩] },
        [ProvEv.findRouter, ProvEv.createRouter],
        by simp [ensure_router, hfind, create_router],
        hwfc, by dsimp only; omega, by dsimp only; omega,
        rfl, rfl, rfl, rfl, rfl, hcreate hfind⟩

/-- Contract of the security-group slot: the lookup always runs; in
addition, when no existing group belongs to the project, the returned
group is fresh, so no existing rule references it. -/
theorem ensure_security_group_spec (s : CloudState) (p : Project)
    (hwf : WF s) (hp : p.id < s.nextId) :
    ∃ g s' e, ensure_security_group s p = (g, s', e)
      ∧ WF s' ∧ p.id < s'.nextId ∧ s.nextId ≤ s'.nextId
      ∧ s'.projects = s.projects ∧ s'.networks = s.networks
      ∧ s'.subnets = s.subnets ∧ s'.routers = s.routers
      ∧ s'.sgRules = s.sgRules
      ∧ find_security_group s' p SECURITY_GROUP_NAME = some g
      ∧ g.id < s'.nextId
      ∧ ((∀ g' ∈ s.securityGroups, g'.projectId ≠ p.id) →
          ∀ ru ∈ s.sgRules, ru.sgId ≠ g.id) := by
  cases hfind : find_security_group s p SECURITY_GROUP_NAME with
  | some g =>
    have hmem := List.mem_of_find?_eq_some hfind
    have hpred := List.find?_some hfind
    simp only [Bool.and_eq_true, beq_iff_eq] at hpred
    refine ⟨g, s, [ProvEv.findSecurityGroup],
      by simp [ensure_security_group, hfind],
      hwf, hp, le_refl _, rfl, rfl, rfl, rfl, rfl, hfind,
      (hwf.sg g hmem).1, ?_⟩
    intro hno
    exact absurd hpred.1 (hno g hmem)
  | none =>
    have hfindn : find_security_group
        { s with nextId := s.nextId + 1,
                 securityGroups := (s.securityGroups
                   ++ [⟨s.nextId, p.id, SECURITY_GROUP_NAME⟩]) }
        p SECURITY_GROUP_NAME = some ⟨s.nextId, p.id, SECURITY_GROUP_NAME⟩ := by
      simp only [find_security_group]
      rw [find?_append_of_none _ hfind]
      simp
    refine ⟨⟨s.nextId, p.id, SECURITY_GROUP_NAME⟩,
      { s with nextId := s.nextId + 1,
               securityGroups := (s.securityGroups
                 ++ [⟨s.nextId, p.id, SECURITY_GROUP_NAME⟩]) },
      [ProvEv.findSecurityGroup, ProvEv.createSecurityGroup],
      by simp [ensure_security_group, hfind, create_security_group],
      ?_, by dsimp only; omega, by dsimp only; omega,
      rfl, rfl, rfl, rfl, rfl, hfindn, by dsimp only; omega, ?_⟩
    · constructor
      · intro q hq; have := hwf.proj q hq; dsimp only; omega
      · intro q hq; have := hwf.net q hq; dsimp only; omega
      · intro q hq; have := hwf.sub q hq; dsimp only; omega
      · intro r hr; have := hwf.rtr r hr; dsimp only; omega
      · intro g hg
        rcases List.mem_append.1 hg with hg | hg
        · have := hwf.sg g hg; dsimp only; omega
        · rcases List.mem_singleton.1 hg with rfl
          constructor <;> dsimp only <;> omega
      · intro r hr; have := hwf.rule r hr; dsimp only; omega
    · intro _ ru hru
      have := hwf.rule ru hru
      simp only
      omega

/-- Contract of the security-group-rule slot. -/
theorem ensure_security_group_rule_spec (s : CloudState)
    (g : SecurityGroup) (b : Bool) (hwf : WF s) (hg : g.id < s.nextId)
    (hfr : b = true → ∀ ru ∈ s.sgRules, ru.sgId ≠ g.id) :
    ∃ ru s' e, ensure_security_group_rule s g b = (ru, s', e)
      ∧ WF s' ∧ s.nextId ≤ s'.nextId
      ∧ s'.projects = s.projects ∧ s'.networks = s.networks
      ∧ s'.subnets = s.subnets ∧ s'.routers = s.routers
      ∧ s'.securityGroups = s.securityGroups
      ∧ find_security_group_rule s' g = some ru := by
  have hcreate : ∀ _hnone : s.sgRules.find? (fun r => r.sgId == g.id) = none,
      find_security_group_rule
        { s with nextId := s.nextId + 1,
                 sgRules := s.sgRules ++ [⟨s.nextId, g.id⟩] } g
        = some ⟨s.nextId, g.id⟩ := by
    intro hnone
    simp only [find_security_group_rule]
    rw [find?_append_of_none _ hnone]
    simp
  have hwfc : WF { s with nextId := s.nextId + 1,
                          sgRules := s.sgRules ++ [⟨s.nextId, g.id⟩] } := by
    constructor
    · intro q hq; have := hwf.proj q hq; dsimp only; omega
    · intro q hq; have := hwf.net q hq; dsimp only; omega
    · intro q hq; have := hwf.sub q hq; dsimp only; omega
    · intro r hr; have := hwf.rtr r hr; dsimp only; omega
    · intro q hq; have := hwf.sg q hq; dsimp only; omega
    · intro r hr
      rcases List.mem_append.1 hr with hr | hr
      · have := hwf.rule r hr; dsimp only; omega
      · rcases List.mem_singleton.1 hr with rfl
        constructor <;> dsimp only <;> omega
  cases b with
  | true =>
    have hnone : s.sgRules.find? (fun r => r.sgId == g.id) = none := by
      rw [List.find?_eq_none]
      intro q hq
      simp only [beq_iff_eq]
      exact hfr rfl q hq
    exact ⟨⟨s.nextId, g.id⟩,
      { s with nextId := s.nextId + 1,
               sgRules := s.sgRules ++ [⟨s.nextId, g.id⟩] },
      [ProvEv.createSecurityGroupRule], rfl, hwfc,
      by dsimp only; omega, rfl, rfl, rfl, rfl, rfl, hcreate hnone⟩
  | false =>
    cases hfind : find_security_group_rule s g with
    | some ru =>
      exact ⟨ru, s, [ProvEv.findSecurityGroupRule],
        by simp [ensure_security_group_rule, hfind],
        hwf, le_refl _, rfl, rfl, rfl, rfl, rfl, hfind⟩
    | none =>
      exact ⟨⟨s.nextId, g.id⟩,
        { s with nextId := s.nextId + 1,
                 sgRules := s.sgRules ++ [⟨s.nextId, g.id⟩] },
        [ProvEv.findSecurityGroupRule, ProvEv.createSecurityGroupRule],
        by simp [ensure_security_group_rule, hfind, create_security_group_rule],
        hwfc, by dsimp only; omega, rfl, rfl, rfl, rfl, rfl, hcreate hfind⟩

/-- Contract of lines 49-91: from a well-formed state (with freshness of
the project id when the project is new), the slots leave a state where
every slot lookup succeeds, without touching the project list. -/
theorem ensure_rest_spec (s : CloudState) (p : Project) (b : Bool)
    (evs : List ProvEv) (hwf : WF s) (hp : p.id < s.nextId)
    (hfrN : b = true → ∀ n ∈ s.networks, n.projectId ≠ p.id)
    (hfrR : b = true → ∀ r ∈ s.routers, r.projectId ≠ p.id)
    (hfrG : b = true → ∀ g ∈ s.securityGroups, g.projectId ≠ p.id) :
    ∃ s' e, ensure_rest s p b evs = (p, s', evs ++ e)
      ∧ s'.projects = s.projects
      ∧ ∃ n, find_network s' p NETWORK_NAME = some n
        ∧ (find_subnet s' p n SUBNET_NAME).isSome
        ∧ (find_router s' p ROUTER_NAME).isSome
        ∧ ∃ g, find_security_group s' p SECURITY_GROUP_NAME = some g
          ∧ (find_security_group_rule s' g).isSome := by
  obtain ⟨n, nb, s1, e1, he1, hwf1, hp1, hle1, hprj1, hsub1, hrtr1, hsg1,
      hrul1, hfn1, hnid1, hsubfr⟩ :=
    ensure_network_spec s p b hwf hp hfrN
  obtain ⟨x, s2, e2, he2, hwf2, hp2, hn2, hle2, hprj2, hnet2, hrtr2, hsg2,
      hrul2, hfx2⟩ :=
    ensure_subnet_spec s1 p n nb hwf1 hp1 hnid1 (by
      intro hb y hy
      rw [hsub1] at hy
      exact hsubfr hb y hy)
  obtain ⟨r, s3, e3, he3, hwf3, hp3, hle3, hprj3, hnet3, hsub3, hsg3,
      hrul3, hfr3⟩ :=
    ensure_router_spec s2 p n x b hwf2 hp2 (by
      intro hb q hq
      rw [hrtr2, hrtr1] at hq
      exact hfrR hb q hq)
  obtain ⟨g, s4, e4, he4, hwf4, hp4, hle4, hprj4, hnet4, hsub4, hrtr4,
      hrul4, hfg4, hgid4, hgr4⟩ :=
    ensure_security_group_spec s3 p hwf3 hp3
  obtain ⟨ru, s5, e5, he5, hwf5, hle5, hprj5, hnet5, hsub5, hrtr5, hsg5,
      hfru5⟩ :=
    ensure_security_group_rule_spec s4 g b hwf4 hgid4 (by
      intro hb q hq
      have hq3 : q ∈ s3.sgRules := by rw [hrul4] at hq; exact hq
      refine hgr4 ?_ q hq3
      intro g' hg'
      rw [hsg3, hsg2, hsg1] at hg'
      exact hfrG hb g' hg')
  refine ⟨s5, e1 ++ e2 ++ e3 ++ e4 ++ e5, ?_, ?_, n, ?_, ?_, ?_, g, ?_, ?_⟩
  · simp only [ensure_rest, he1, he2, he3, he4, he5]
    simp [List.append_assoc]
  · rw [hprj5, hprj4, hprj3, hprj2, hprj1]
  · have hA : s5.networks = s1.networks := by rw [hnet5, hnet4, hnet3, hnet2]
    rw [find_network_congr hA, hfn1]
  · have hA : s5.subnets = s2.subnets := by rw [hsub5, hsub4, hsub3]
    rw [find_subnet_congr hA, hfx2]
    rfl
  · have hA : s5.routers = s3.routers := by rw [hrtr5, hrtr4]
    rw [find_router_congr hA, hfr3]
    rfl
  · have hA : s5.securityGroups = s4.securityGroups := hsg5
    rw [find_security_group_congr hA, hfg4]
  · rw [hfru5]
    rfl

/-- After one deep run of `ensure_project` from any well-formed state,
the returned project is fully provisioned in the returned state. -/
theorem ensure_deep_provisioned (s : CloudState) (name : String)
    (hwf : WF s) :
    provisioned (ensure_project s name false).2.1 name
      (ensure_project s name false).1 := by
  cases hfind : find_project s name with
  | some p =>
    have hp : p.id < s.nextId := hwf.proj p (List.mem_of_find?_eq_some hfind)
    obtain ⟨s', e, heq, hprj, n, hfn, hfs, hfr, g, hfg, hfru⟩ :=
      ensure_rest_spec s p false [ProvEv.findProject] hwf hp
        (fun h => by cases h) (fun h => by cases h) (fun h => by cases h)
    have hEP : ensure_project s name false
        = (p, s', [ProvEv.findProject] ++ e) := by
      simp [ensure_project, hfind, heq]
    rw [hEP]
    exact ⟨by rw [find_project_congr hprj]; exact hfind,
      n, hfn, hfs, hfr, g, hfg, hfru⟩
  | none =>
    have hwf1 : WF { s with nextId := s.nextId + 1,
                            projects := s.projects ++ [⟨s.nextId, name⟩] } := by
      constructor
      · intro q hq
        rcases List.mem_append.1 hq with hq | hq
        · have := hwf.proj q hq; dsimp only; omega
        · rcases List.mem_singleton.1 hq with rfl; dsimp only; omega
      · intro q hq; have := hwf.net q hq; dsimp only; omega
      · intro q hq; have := hwf.sub q hq; dsimp only; omega
      · intro q hq; have := hwf.rtr q hq; dsimp only; omega
      · intro q hq; have := hwf.sg q hq; dsimp only; omega
      · intro q hq; have := hwf.rule q hq; dsimp only; omega
    obtain ⟨s', e, heq, hprj, n, hfn, hfs, hfr, g, hfg, hfru⟩ :=
      ensure_rest_spec
        { s with nextId := s.nextId + 1,
                 projects := s.projects ++ [⟨s.nextId, name⟩] }
        ⟨s.nextId, name⟩ true
        [ProvEv.findProject, ProvEv.createProject]
        hwf1 (by dsimp only; omega)
        (fun _ q hq => by
          have hq' : q ∈ s.networks := hq
          have := hwf.net q hq'
          dsimp only
          omega)
        (fun _ q hq => by
          have hq' : q ∈ s.routers := hq
          have := hwf.rtr q hq'
          dsimp only
          omega)
        (fun _ q hq => by
          have hq' : q ∈ s.securityGroups := hq
          have := hwf.sg q hq'
          dsimp only
          omega)
    have hEP : ensure_project s name false
        = (⟨s.nextId, name⟩, s',
           [ProvEv.findProject, ProvEv.createProject] ++ e) := by
      simp only [ensure_project, hfind, create_project]
      exact heq
    rw [hEP]
    refine ⟨?_, n, hfn, hfs, hfr, g, hfg, hfru⟩
    rw [find_project_congr hprj]
    simp only [find_project]
    rw [find?_append_of_none _ (by simpa [find_project] using hfind)]
    simp

/-- On a fully provisioned state, a deep `ensure_project` run performs
exactly the six slot lookups, creates nothing, and leaves the state
unchanged. -/
theorem ensure_deep_of_provisioned (s : CloudState) (name : String)
    (p : Project) (h : provisioned s name p) :
    ensure_project s name false
      = (p, s, [ProvEv.findProject, ProvEv.findNetwork, ProvEv.findSubnet,
                ProvEv.findRouter, ProvEv.findSecurityGroup,
                ProvEv.findSecurityGroupRule]) := by
  obtain ⟨hp, n, hn, hsub, hrtr, g, hg, hru⟩ := h
  rw [Option.isSome_iff_exists] at hsub hrtr hru
  obtain ⟨x, hx⟩ := hsub
  obtain ⟨r, hr⟩ := hrtr
  obtain ⟨ru, hruu⟩ := hru
  simp [ensure_project, hp, ensure_rest, ensure_network, hn, ensure_subnet,
    hx, ensure_router, hr, ensure_security_group, hg,
    ensure_security_group_rule, hruu]

/-- C3: calling `ensure_project` twice with the same name in deep mode
(`assume_complete=False`) from any well-formed state returns the same
project both times; the second call performs exactly one lookup per
slot, in order, creates nothing, and leaves the cloud state
unchanged. -/
theorem ensure_project_idempotent (s : CloudState) (name : String)
    (h : WF s) :
    ensure_project (ensure_project s name false).2.1 name false
      = ((ensure_project s name false).1,
         (ensure_project s name false).2.1,
         [ProvEv.findProject, ProvEv.findNetwork, ProvEv.findSubnet,
          ProvEv.findRouter, ProvEv.findSecurityGroup,
          ProvEv.findSecurityGroupRule]) :=
  ensure_deep_of_provisioned _ _ _ (ensure_deep_provisioned s name h)

/-- Witness for C3: two deep runs from the empty cloud. -/
theorem ensure_project_idempotent_witness :
    WF emptyState
    ∧ ensure_project (ensure_project emptyState "alpha" false).2.1
        "alpha" false
      = ((ensure_project emptyState "alpha" false).1,
         (ensure_project emptyState "alpha" false).2.1,
         [ProvEv.findProject, ProvEv.findNetwork, ProvEv.findSubnet,
          ProvEv.findRouter, ProvEv.findSecurityGroup,
          ProvEv.findSecurityGroupRule]) :=
  ⟨by constructor <;> simp [emptyState],
   ensure_project_idempotent emptyState "alpha"
     (by constructor <;> simp [emptyState])⟩

/-- C9: for an existing project, shallow mode (`assume_complete=True`)
returns the found project immediately: the only call issued is the
project lookup, and the cloud state is unchanged. -/
theorem ensure_project_shallow (s : CloudState) (name : String)
    (p : Project) (h : find_project s name = some p) :
    ensure_project s name true = (p, s, [ProvEv.findProject]) := by
  simp [ensure_project, h]

/-- Witness for C9: a cloud holding exactly one project. -/
theorem ensure_project_shallow_witness :
    find_project ⟨1, [⟨0, "alpha"⟩], [], [], [], [], []⟩ "alpha"
      = some ⟨0, "alpha"⟩
    ∧ ensure_project ⟨1, [⟨0, "alpha"⟩], [], [], [], [], []⟩ "alpha" true
      = (⟨0, "alpha"⟩, ⟨1, [⟨0, "alpha"⟩], [], [], [], [], []⟩,
         [ProvEv.findProject]) :=
  ⟨by decide, ensure_project_shallow _ "alpha" _ (by decide)⟩

end P9Admin
